import Mathlib

/-!
Verification development for the FoxEngine renderer.

Shallow embedding of the per-frame rendering pipeline of
src/game/src/EntryPoint.cpp together with the radial blur shader
(src/unnamed/part_000).  GLSL float arithmetic is modelled over the
rationals; vec2/vec3 component-wise operations are written out
component by component.  The shader computes a vec3 colour whose three
channels go through identical arithmetic, so a single channel is
modelled (the texture is a function from a sample position to one
channel value).
-/

/-! ## GLSL building blocks (src/unnamed/part_000) -/

/-- GLSL fract: x - floor x. -/
def fract (x : ℚ) : ℚ := x - ⌊x⌋

/-- The per-fragment jitter hash of the radial blur shader
(src/unnamed/part_000, function hash12):
p3 = fract(vec3(p.xyx) * .1031); p3 += dot(p3, p3.yzx + 33.33);
return fract((p3.x + p3.y) * p3.z). -/
def hash12 (p : ℚ × ℚ) : ℚ :=
  let p3x := fract (p.1 * (1031 / 10000))
  let p3y := fract (p.2 * (1031 / 10000))
  let p3z := fract (p.1 * (1031 / 10000))
  let d := p3x * (p3y + 3333 / 100) + p3y * (p3z + 3333 / 100) + p3z * (p3x + 3333 / 100)
  let q3x := p3x + d
  let q3y := p3y + d
  let q3z := p3z + d
  fract ((q3x + q3y) * q3z)

/-- Uniforms declared by the radial blur shader source
(src/unnamed/part_000, lines 7 to 9): only uResolution, uTime and
uChannel0 exist; no uCenter, uStrength or uIterations uniform is
declared. -/
def radialBlurShaderUniforms : List String := ["uResolution", "uTime", "uChannel0"]

/-- percent = (t + jitter) / iterations, as computed inside the blur loop. -/
def blurPercent (iterations : ℕ) (jitter : ℚ) (t : ℕ) : ℚ :=
  ((t : ℚ) + jitter) / (iterations : ℚ)

/-- weight = 4.0 * (percent - percent * percent), the parabolic falloff of
one iteration of the blur loop. -/
def blurWeight (iterations : ℕ) (jitter : ℚ) (t : ℕ) : ℚ :=
  4 * (blurPercent iterations jitter t - blurPercent iterations jitter t * blurPercent iterations jitter t)

/-- The texture coordinate sampled at one iteration:
getSample(vUv + toCenter * percent / uResolution) where
toCenter = (center - vUv) * uResolution, and getSample adds
uTime * 0.1 to both components before the texture lookup. -/
def blurSamplePos (center vUv res : ℚ × ℚ) (uTime percent : ℚ) : ℚ × ℚ :=
  ((vUv.1 + (center.1 - vUv.1) * res.1 * percent / res.1) + uTime * (1 / 10),
   (vUv.2 + (center.2 - vUv.2) * res.2 * percent / res.2) + uTime * (1 / 10))

/-- The sampled (and strength-scaled) colour value of one loop iteration:
_sample.rgb *= strength, one channel. -/
def blurSampleVal (strength : ℚ) (center vUv res : ℚ × ℚ) (uTime : ℚ)
    (tex : ℚ × ℚ → ℚ) (iterations : ℕ) (jitter : ℚ) (t : ℕ) : ℚ :=
  strength * tex (blurSamplePos center vUv res uTime (blurPercent iterations jitter t))

/-- The radial blur loop of the fragment shader: accumulate
color += sample * weight and total += weight over
t = 0, 1, ..., iterations - 1, then output color / total.
The single loop accumulating both sums is written as two sums over the
same index range. -/
def radialBlurCore (iterations : ℕ) (jitter strength : ℚ) (center vUv res : ℚ × ℚ)
    (uTime : ℚ) (tex : ℚ × ℚ → ℚ) : ℚ :=
  (∑ t ∈ Finset.range iterations,
      blurWeight iterations jitter t * blurSampleVal strength center vUv res uTime tex iterations jitter t)
  / (∑ t ∈ Finset.range iterations, blurWeight iterations jitter t)

/-- The fragment shader main of src/unnamed/part_000 (FE_FRAG branch):
strength = 1.0, center = vec2(0.5, 0.5), jitter = hash12(gl_FragCoord.xy),
iterations = 40.0, followed by the blur loop.  The centre and iteration
count are local constants of the shader source. -/
def fragMain (uResolution : ℚ × ℚ) (uTime : ℚ) (tex : ℚ × ℚ → ℚ)
    (fragCoord vUv : ℚ × ℚ) : ℚ :=
  radialBlurCore 40 (hash12 fragCoord) 1 (1 / 2, 1 / 2) vUv uResolution uTime tex

/-! ## Driver-side radial blur uniform upload (EntryPoint.cpp, lines 707-712) -/

/-- Uniform names the frame driver uploads to the radial blur shader each
frame (EntryPoint.cpp lines 708 to 712). -/
def driverUploadedUniforms : List String :=
  ["uResolution", "uCenter", "uStrength", "uTime", "uIterations"]

/-- The focus point the driver uploads as uCenter: the perspective-divided
sun centre remapped from [-1,1] to [0,1]:
sunCoordCenter * 0.5 + 0.5 per component (EntryPoint.cpp line 709). -/
def driverBlurCenter (sunCoordCenter : ℚ × ℚ) : ℚ × ℚ :=
  (sunCoordCenter.1 * (1 / 2) + 1 / 2, sunCoordCenter.2 * (1 / 2) + 1 / 2)

/-- Modelled from the spec: the radial blur as the spec describes it,
using the iteration count N supplied by the driver (the samples value of
the Lighting panel) and, as focus point, the sun screen-space centre
remapped from [-1,1] to [0,1].  Used only to compare the spec-described
behaviour with the shader source (fragMain). -/
def radialBlurDriven (samples : ℕ) (sunCoordCenter : ℚ × ℚ) (uResolution : ℚ × ℚ)
    (uTime : ℚ) (tex : ℚ × ℚ → ℚ) (fragCoord vUv : ℚ × ℚ) : ℚ :=
  radialBlurCore samples (hash12 fragCoord) 1 (driverBlurCenter sunCoordCenter) vUv uResolution uTime tex

/-! ## Claim C9 -/

/-- C9: the per-pixel blur jitter (hash12) is a deterministic function of
the fragment coordinate - two evaluations at the same coordinate yield the
same value - and its value always lies in [0,1). -/
theorem hash12_deterministic_and_in_unit_interval (p q : ℚ × ℚ) (hpq : p = q) :
    hash12 p = hash12 q ∧ 0 ≤ hash12 p ∧ hash12 p < 1 := by
  subst hpq
  have hfr : ∀ x : ℚ, fract x = Int.fract x := fun x => rfl
  refine ⟨rfl, ?_, ?_⟩
  · show 0 ≤ fract _
    rw [hfr]
    exact Int.fract_nonneg _
  · show fract _ < 1
    rw [hfr]
    exact Int.fract_lt_one _

/-- Witness for C9 at the concrete fragment coordinate (3, 7). -/
theorem hash12_deterministic_and_in_unit_interval_witness :
    hash12 (3, 7) = hash12 (3, 7) ∧ 0 ≤ hash12 (3, 7) ∧ hash12 (3, 7) < 1 :=
  hash12_deterministic_and_in_unit_interval (3, 7) (3, 7) rfl

/-! ## Entities and the scene / icon passes (EntryPoint.cpp) -/

/-- A renderable entity: the fields of TransformComponent (only the tag
string matters for pass routing), MeshFilterComponent and
MeshRendererComponent that the render passes consult.  The shared_ptr
members mesh, shader and texture may be null after a failed asset load;
a null pointer is modelled as none, a live object as some of its object
id.  The list of entities handed to a pass stands for the registry view
over entities owning all three components. -/
structure Entity where
  tag : String
  mesh : Option ℕ
  shader : Option ℕ
  texture : Option ℕ
deriving DecidableEq

/-- One issued draw: the shader, texture and mesh objects that are bound
and drawn for an entity (uniform matrix uploads and the per-shader cull
toggle do not affect which entities are drawn and are elided). -/
structure DrawCmd where
  shader : ℕ
  texture : ℕ
  mesh : ℕ
deriving DecidableEq

/-- The per-entity body of the scene pass loop (EntryPoint.cpp lines
622 to 646), with the four continue checks in source order:
null texture, null shader, null mesh, tag equal to __icon.
Returns none when the entity is skipped. -/
def sceneDrawOf (e : Entity) : Option DrawCmd :=
  match e.texture with
  | none => none
  | some tx =>
    match e.shader with
    | none => none
    | some sh =>
      match e.mesh with
      | none => none
      | some m =>
        if e.tag = "__icon" then none else some ⟨sh, tx, m⟩

/-- The condition under which the scene pass draws an entity, as the
claim states it: non-null mesh, shader and texture, and not tagged for
icon-only rendering. -/
def renderableB (e : Entity) : Bool :=
  e.texture.isSome && e.shader.isSome && e.mesh.isSome && !(e.tag == "__icon")

/-- The scene pass over the registry view: a total function (skips never
throw or abort the frame), producing the list of issued draws. -/
def scenePass (es : List Entity) : List DrawCmd :=
  es.filterMap sceneDrawOf

/-- The per-frame icon snapshot loop (EntryPoint.cpp lines 925 to 938):
only the tag is checked (continue when tag is not __icon); the shader,
texture and mesh pointers are then dereferenced with no null check.
Dereferencing a null pointer is modelled as none (the frame is lost);
a completed pass returns some of its draw list. -/
def iconPass : List Entity → Option (List DrawCmd)
  | [] => some []
  | e :: es =>
    if e.tag ≠ "__icon" then iconPass es
    else
      match e.shader, e.texture, e.mesh with
      | some sh, some tx, some m => (iconPass es).map (fun ds => ⟨sh, tx, m⟩ :: ds)
      | _, _, _ => none

/-! ## Claim C7 -/

/-- C7: the scene pass draws exactly the entities that have non-null
mesh, shader and texture references and are not tagged for icon-only
rendering; every entity missing any of these resources is skipped
silently (sceneDrawOf is none for it and scenePass is a total function,
so the frame is not aborted). -/
theorem scenePass_draws_exactly_renderable :
    (∀ e : Entity, (sceneDrawOf e).isSome = renderableB e)
    ∧ ∀ es : List Entity, scenePass es = (es.filter renderableB).filterMap sceneDrawOf := by
  have hent : ∀ e : Entity, (sceneDrawOf e).isSome = renderableB e := by
    intro e
    obtain ⟨tag, m, sh, tx⟩ := e
    cases tx <;> cases sh <;> cases m <;>
      simp [sceneDrawOf, renderableB] <;>
      by_cases htag : tag = "__icon" <;>
      simp [htag]
  refine ⟨hent, ?_⟩
  intro es
  induction es with
  | nil => rfl
  | cons e es ih =>
    by_cases hre : renderableB e
    · have hsome : (sceneDrawOf e).isSome = true := by rw [hent e]; exact hre
      obtain ⟨d, hd⟩ := Option.isSome_iff_exists.mp hsome
      simp [scenePass, List.filterMap_cons, List.filter_cons, hre, hd] at ih ⊢
      exact ih
    · have hnone : sceneDrawOf e = none :=
        Option.not_isSome_iff_eq_none.mp (by rw [hent e]; exact hre)
      simp [scenePass, List.filterMap_cons, List.filter_cons, hre, hnone] at ih ⊢
      exact ih

/-! ## Claim C4 -/

/-- C4: the icon pass does not skip an icon-tagged entity whose mesh
reference is null; it dereferences the null handle instead (the model
returns none, no draw list is produced).  Evaluates the icon pass at the
failing input: a single __icon entity whose mesh failed to load. -/
theorem iconPass_null_mesh_not_skipped :
    iconPass [{ tag := "__icon", mesh := none, shader := some 0, texture := some 0 }] = none
    ∧ iconPass [{ tag := "__icon", mesh := none, shader := some 0, texture := some 0 }] ≠ some [] := by
  constructor
  · rfl
  · intro h
    simp [iconPass] at h

/-! ## Render target reallocation (EntryPoint.cpp, lines 554-607) -/

/-- GPU object lifecycle events of the viewport resize block, in the
order the source performs them.  The destroyOld events are the implicit
destruction of the previously held attachment objects when the Poly
holders are reassigned. -/
inductive RTEvent
  | deleteFramebufferObj
  | createColor0
  | destroyOldColor0
  | createColor1
  | destroyOldColor1
  | createDepth
  | destroyOldDepth
  | createFramebufferObj
  | attachColor0
  | attachColor1
  | attachDepth
  | setDrawBuffers
deriving DecidableEq

/-- The event sequence of the resize block (EntryPoint.cpp lines
562 to 605) when the size changed.  hasOld is true when a previous
target exists (fbo nonzero and the Poly holders occupied): the old
framebuffer object is deleted first (line 562), then each attachment is
recreated (each reassignment destroys the old object right after the new
one is constructed), then the new framebuffer is generated, the
attachments are bound and the draw buffers are declared. -/
def resizeEvents (hasOld : Bool) : List RTEvent :=
  (if hasOld then [RTEvent.deleteFramebufferObj] else [])
    ++ [RTEvent.createColor0] ++ (if hasOld then [RTEvent.destroyOldColor0] else [])
    ++ [RTEvent.createColor1] ++ (if hasOld then [RTEvent.destroyOldColor1] else [])
    ++ [RTEvent.createDepth] ++ (if hasOld then [RTEvent.destroyOldDepth] else [])
    ++ [RTEvent.createFramebufferObj, RTEvent.attachColor0, RTEvent.attachColor1,
        RTEvent.attachDepth, RTEvent.setDrawBuffers]

/-- Events that tear down part of the previous render target. -/
def isTeardown : RTEvent → Bool
  | RTEvent.deleteFramebufferObj => true
  | RTEvent.destroyOldColor0 => true
  | RTEvent.destroyOldColor1 => true
  | RTEvent.destroyOldDepth => true
  | _ => false

/-- Events that create or bind part of the new render target. -/
def isNewSetup : RTEvent → Bool
  | RTEvent.createColor0 => true
  | RTEvent.createColor1 => true
  | RTEvent.createDepth => true
  | RTEvent.createFramebufferObj => true
  | RTEvent.attachColor0 => true
  | RTEvent.attachColor1 => true
  | RTEvent.attachDepth => true
  | RTEvent.setDrawBuffers => true
  | _ => false

/-- Positions in the event list at which the predicate holds. -/
def eventPositions (p : RTEvent → Bool) (evs : List RTEvent) : List ℕ :=
  (evs.enum.filter fun ie => p ie.2).map Prod.fst

/-- Atomic replacement as the claim states it: every teardown of the old
target occurs strictly after every creation/bind of the new one. -/
def teardownOnlyAfterSetup (evs : List RTEvent) : Bool :=
  (eventPositions isTeardown evs).all fun i =>
    (eventPositions isNewSetup evs).all fun j => j < i

/-! ## Claim C1 -/

/-- C1: render target reallocation is not atomic.  With a previous
target present, the resize block deletes the old framebuffer object
before any new attachment is created and bound, so a failure during
attachment creation leaves no intact previous target.  The claimed
property teardownOnlyAfterSetup evaluates to false on the source event
order. -/
theorem resize_deletes_old_before_new_setup :
    teardownOnlyAfterSetup (resizeEvents true) = false := by decide

/-! ## Viewport resize state (EntryPoint.cpp, lines 554-607) -/

/-- The render target state the resize block maintains: the stored
viewport size vpw/vph (ints), a generation counter for the framebuffer
object (0 means none yet; each reallocation creates a fresh object), and
the dimensions (ints) of the three attachments: color attachment 0,
color attachment 1 (the glare target) and the depth renderbuffer. -/
structure RenderTarget where
  vpw : ℤ
  vph : ℤ
  fboGen : ℕ
  color0W : ℤ
  color0H : ℤ
  color1W : ℤ
  color1H : ℤ
  depthW : ℤ
  depthH : ℤ
deriving DecidableEq

/-- The viewport resize operation (EntryPoint.cpp lines 554 to 607).
The incoming size is the float content region size of the viewport
window, modelled as rationals.  Mirrors the source: the block only runs
when size.x != 0 and size.y != 0; it reallocates when vpw != size.x or
vph != size.y (an int compared against a float); the stored size is
static_cast to int (truncation, equal to the floor for the nonnegative
sizes the UI produces) and all attachments are created with the
truncated dimensions. -/
def ensureSize (rt : RenderTarget) (sx sy : ℚ) : RenderTarget :=
  if sx ≠ 0 ∧ sy ≠ 0 then
    if (rt.vpw : ℚ) ≠ sx ∨ (rt.vph : ℚ) ≠ sy then
      { vpw := ⌊sx⌋, vph := ⌊sy⌋, fboGen := rt.fboGen + 1
        color0W := ⌊sx⌋, color0H := ⌊sy⌋
        color1W := ⌊sx⌋, color1H := ⌊sy⌋
        depthW := ⌊sx⌋, depthH := ⌊sy⌋ }
    else rt
  else rt

/-- The initial render target state of the frame loop: no framebuffer,
size zero (EntryPoint.cpp lines 364 to 368). -/
def initRenderTarget : RenderTarget :=
  { vpw := 0, vph := 0, fboGen := 0
    color0W := 0, color0H := 0, color1W := 0, color1H := 0, depthW := 0, depthH := 0 }

/-! ## Claim C5 -/

/-- C5 counterexample: the viewport size arrives as a float pair and the
resize block truncates it, so for the fractional size (3/2, 2) the
produced attachment width is 1, not 3/2; and because the stored int is
compared against the float (vpw != size.x), a second call with the very
same size reallocates again (the framebuffer generation changes), also
contradicting the source comment that a resize is required only if the
size changed. -/
theorem ensureSize_fractional_size_counterexample :
    ((ensureSize initRenderTarget (3 / 2) 2).color0W : ℚ) ≠ 3 / 2
    ∧ ensureSize (ensureSize initRenderTarget (3 / 2) 2) (3 / 2) 2
        ≠ ensureSize initRenderTarget (3 / 2) 2 := by
  have hfloor : ⌊(3 / 2 : ℚ)⌋ = 1 := by
    rw [Int.floor_eq_iff] <;> norm_num
  have hfloor2 : ⌊(2 : ℚ)⌋ = 2 := by
    rw [Int.floor_eq_iff] <;> norm_num
  have h1 : ensureSize initRenderTarget (3 / 2) 2 =
      { vpw := 1, vph := 2, fboGen := 1
        color0W := 1, color0H := 2, color1W := 1, color1H := 2, depthW := 1, depthH := 2 } := by
    rw [ensureSize, if_pos (by norm_num), if_pos (by left; norm_num [initRenderTarget])]
    simp [initRenderTarget, hfloor, hfloor2]
  have h2 : ensureSize (ensureSize initRenderTarget (3 / 2) 2) (3 / 2) 2 =
      { vpw := 1, vph := 2, fboGen := 2
        color0W := 1, color0H := 2, color1W := 1, color1H := 2, depthW := 1, depthH := 2 } := by
    rw [h1, ensureSize, if_pos (by norm_num), if_pos (by left; norm_num)]
    simp [hfloor, hfloor2]
  refine ⟨?_, ?_⟩
  · rw [h1]
    norm_num
  · rw [h2, h1]
    simp [RenderTarget.mk.injEq]

/-- C5 (amended): for integer viewport sizes w, h > 0, starting from any
state whose attachment dimensions match the stored size, the resize
operation produces a render target whose three attachments have
dimensions exactly (w, h), and invoking it again with the same (w, h)
leaves the target unchanged (no reallocation). -/
theorem ensureSize_integer_size_exact_and_stable (rt : RenderTarget) (w h : ℤ)
    (hw : 0 < w) (hh : 0 < h)
    (hinv : rt.color0W = rt.vpw ∧ rt.color0H = rt.vph ∧ rt.color1W = rt.vpw ∧
        rt.color1H = rt.vph ∧ rt.depthW = rt.vpw ∧ rt.depthH = rt.vph) :
    ((ensureSize rt (w : ℚ) (h : ℚ)).color0W = w ∧ (ensureSize rt (w : ℚ) (h : ℚ)).color0H = h ∧
     (ensureSize rt (w : ℚ) (h : ℚ)).color1W = w ∧ (ensureSize rt (w : ℚ) (h : ℚ)).color1H = h ∧
     (ensureSize rt (w : ℚ) (h : ℚ)).depthW = w ∧ (ensureSize rt (w : ℚ) (h : ℚ)).depthH = h)
    ∧ ensureSize (ensureSize rt (w : ℚ) (h : ℚ)) (w : ℚ) (h : ℚ) = ensureSize rt (w : ℚ) (h : ℚ) := by
  have hw0 : (w : ℚ) ≠ 0 := by
    have : (0 : ℚ) < (w : ℚ) := by exact_mod_cast hw
    exact this.ne'
  have hh0 : (h : ℚ) ≠ 0 := by
    have : (0 : ℚ) < (h : ℚ) := by exact_mod_cast hh
    exact this.ne'
  have houter : (w : ℚ) ≠ 0 ∧ (h : ℚ) ≠ 0 := ⟨hw0, hh0⟩
  by_cases hc : (rt.vpw : ℚ) ≠ (w : ℚ) ∨ (rt.vph : ℚ) ≠ (h : ℚ)
  · have hres : ensureSize rt (w : ℚ) (h : ℚ) =
        { vpw := w, vph := h, fboGen := rt.fboGen + 1
          color0W := w, color0H := h, color1W := w, color1H := h, depthW := w, depthH := h } := by
      simp only [ensureSize, if_pos houter, if_pos hc, Int.floor_intCast]
    rw [hres]
    refine ⟨⟨rfl, rfl, rfl, rfl, rfl, rfl⟩, ?_⟩
    simp only [ensureSize, if_pos houter]
    rw [if_neg]
    push_neg
    exact ⟨rfl, rfl⟩
  · have hres : ensureSize rt (w : ℚ) (h : ℚ) = rt := by
      simp only [ensureSize, if_pos houter, if_neg hc]
    push_neg at hc
    have hvw : rt.vpw = w := by exact_mod_cast hc.1
    have hvh : rt.vph = h := by exact_mod_cast hc.2
    rw [hres]
    exact ⟨⟨hinv.1.trans hvw, hinv.2.1.trans hvh, hinv.2.2.1.trans hvw,
        hinv.2.2.2.1.trans hvh, hinv.2.2.2.2.1.trans hvw, hinv.2.2.2.2.2.trans hvh⟩, hres⟩

/-- Witness for the amended C5 at the integer size (2, 3) from the
initial state. -/
theorem ensureSize_integer_size_witness :
    ((ensureSize initRenderTarget ((2 : ℤ) : ℚ) ((3 : ℤ) : ℚ)).color0W = 2 ∧
     (ensureSize initRenderTarget ((2 : ℤ) : ℚ) ((3 : ℤ) : ℚ)).color0H = 3 ∧
     (ensureSize initRenderTarget ((2 : ℤ) : ℚ) ((3 : ℤ) : ℚ)).color1W = 2 ∧
     (ensureSize initRenderTarget ((2 : ℤ) : ℚ) ((3 : ℤ) : ℚ)).color1H = 3 ∧
     (ensureSize initRenderTarget ((2 : ℤ) : ℚ) ((3 : ℤ) : ℚ)).depthW = 2 ∧
     (ensureSize initRenderTarget ((2 : ℤ) : ℚ) ((3 : ℤ) : ℚ)).depthH = 3)
    ∧ ensureSize (ensureSize initRenderTarget ((2 : ℤ) : ℚ) ((3 : ℤ) : ℚ)) ((2 : ℤ) : ℚ) ((3 : ℤ) : ℚ)
        = ensureSize initRenderTarget ((2 : ℤ) : ℚ) ((3 : ℤ) : ℚ) :=
  ensureSize_integer_size_exact_and_stable initRenderTarget 2 3 (by decide) (by decide)
    ⟨rfl, rfl, rfl, rfl, rfl, rfl⟩

/-! ## GL state across the render block (EntryPoint.cpp, lines 610-727) -/

/-- The GL toggles the render block manipulates. -/
structure GLState where
  depthTest : Bool
  blend : Bool
  depthMask : Bool
deriving DecidableEq

/-- The operations of the render block that touch these toggles, plus
the draws, in source order.  blendFuncOneOne records the
glBlendFunc(GL_ONE, GL_ONE) call; it changes no toggle. -/
inductive GLOp
  | clearBuffers
  | drawScene
  | drawSun
  | drawBlur
  | disableDepthTest
  | enableDepthTest
  | enableBlend
  | disableBlend
  | blendFuncOneOne
  | depthMaskOff
  | depthMaskOn
deriving DecidableEq

/-- Effect of one operation on the toggles. -/
def glApply (s : GLState) : GLOp → GLState
  | GLOp.disableDepthTest => { s with depthTest := false }
  | GLOp.enableDepthTest => { s with depthTest := true }
  | GLOp.enableBlend => { s with blend := true }
  | GLOp.disableBlend => { s with blend := false }
  | GLOp.depthMaskOff => { s with depthMask := false }
  | GLOp.depthMaskOn => { s with depthMask := true }
  | _ => s

/-- GL state entering the frame loop: depth test enabled (line 357),
blending disabled (GL default, and restored at line 725), depth writes
enabled (GL default, restored at line 727). -/
def initGLState : GLState := { depthTest := true, blend := false, depthMask := true }

/-- The render block in source order (EntryPoint.cpp lines 615 to 727):
clear, the scene pass loop, the sun billboard draw (line 692), then
glDisable(GL_DEPTH_TEST) (line 700), glEnable(GL_BLEND),
glBlendFunc(GL_ONE, GL_ONE), glDisable(GL_DEPTH_TEST) again (line 703),
glDepthMask(GL_FALSE), the radial blur fullscreen draw (line 720), and
the state restore (disable blend, enable depth test, depth mask true). -/
def renderBlockOps : List GLOp :=
  [GLOp.clearBuffers, GLOp.drawScene, GLOp.drawSun,
   GLOp.disableDepthTest, GLOp.enableBlend, GLOp.blendFuncOneOne,
   GLOp.disableDepthTest, GLOp.depthMaskOff,
   GLOp.drawBlur,
   GLOp.disableBlend, GLOp.enableDepthTest, GLOp.depthMaskOn]

/-- The GL state in effect when the first occurrence of the target
operation executes. -/
def stateAtFirst : List GLOp → GLState → GLOp → Option GLState
  | [], _, _ => none
  | op :: rest, s, target =>
    if op = target then some s else stateAtFirst rest (glApply s op) target

/-- The depth test toggle in effect at a given draw of the render block. -/
def depthTestAtDraw (target : GLOp) : Option Bool :=
  (stateAtFirst renderBlockOps initGLState target).map fun s => s.depthTest

/-! ## Claim C3 -/

/-- C3 counterexample: the depth test is not disabled during the glare
pass sun-billboard draw; glDisable(GL_DEPTH_TEST) only executes after
the sun draw, so the sun disk is drawn with depth testing enabled. -/
theorem sunDraw_depth_test_not_disabled :
    depthTestAtDraw GLOp.drawSun ≠ some false
    ∧ depthTestAtDraw GLOp.drawSun = some true := by decide

/-- C3 (amended): during the sun-billboard draw the depth test is still
enabled (the scene-pass depth state); it is disabled immediately after
the sun draw, so it is the radial blur composite draw that runs with
the depth test disabled. -/
theorem sunDraw_depth_enabled_blurDraw_depth_disabled :
    depthTestAtDraw GLOp.drawSun = some true
    ∧ depthTestAtDraw GLOp.drawBlur = some false := by decide

/-! ## Icon snapshot cadence (EntryPoint.cpp, lines 898-951) -/

/-- The cadence threshold: 1.0 / 8.0 seconds (line 906). -/
def iconCadenceThreshold : ℚ := 1 / 8

/-- One frame of the icon cadence timer (lines 903 to 950): the timer
accumulates the frame delta; when it exceeds 1/8 the timer is reset to 0
and the snapshot fires, otherwise no snapshot is taken.  Returns the new
timer value and whether the snapshot fired. -/
def iconStep (timer delta : ℚ) : ℚ × Bool :=
  let t := timer + delta
  if t > 1 / 8 then (0, true) else (t, false)

/-! ## Claim C8 -/

/-- C8: the icon snapshot fires exactly when the accumulated time
exceeds the threshold (so it fires only when the accumulated time has
reached 1/8 s); the accumulator is reset to 0 after firing; and when it
does not fire, the accumulated time is carried (no snapshot between
threshold crossings). -/
theorem iconStep_fires_at_threshold_and_resets (timer delta : ℚ) :
    ((iconStep timer delta).2 = true ↔ iconCadenceThreshold < timer + delta)
    ∧ ((iconStep timer delta).2 = true →
        iconCadenceThreshold ≤ timer + delta ∧ (iconStep timer delta).1 = 0)
    ∧ ((iconStep timer delta).2 = false → (iconStep timer delta).1 = timer + delta) := by
  by_cases hgt : (8 : ℚ)⁻¹ < timer + delta
  · have hstep : iconStep timer delta = (0, true) := by
      simp [iconStep, one_div, hgt]
    rw [hstep]
    simp [iconCadenceThreshold, one_div]
    exact ⟨hgt, le_of_lt hgt⟩
  · have hstep : iconStep timer delta = (timer + delta, false) := by
      simp [iconStep, one_div, hgt]
    rw [hstep]
    simp [iconCadenceThreshold, one_div]
    exact le_of_not_lt hgt

/-- Witness for C8 at timer 0 and frame delta 1/4: the snapshot fires,
the accumulated time has reached the threshold, and the timer resets. -/
theorem iconStep_fires_witness :
    (iconStep 0 (1 / 4)).2 = true
    ∧ iconCadenceThreshold ≤ 0 + 1 / 4 ∧ (iconStep 0 (1 / 4)).1 = 0 := by
  have h := iconStep_fires_at_threshold_and_resets 0 (1 / 4)
  have hf : (iconStep 0 (1 / 4)).2 = true := by norm_num [iconStep]
  exact ⟨hf, h.2.1 hf⟩

/-! ## Resource manager (EntryPoint.cpp, lines 166-207) -/

/-- Lookup in the resource map (std unordered_map find): first entry
whose key equals the resource string. -/
def lookupEntry : List (String × ℕ) → String → Option ℕ
  | [], _ => none
  | (k, v) :: rest, key => if k = key then some v else lookupEntry rest key

/-- The cache state of ResourceManager for one asset kind: the map from
resource string to the weak reference (modelled as the object id), and a
counter supplying the id of the next loaded object.  Map assignment
(mMeshes[key] = ref) replaces the entry for the key; this is modelled by
inserting at the front, which shadows any older entry under the
front-first lookupEntry. -/
structure ResourceCache where
  entries : List (String × ℕ)
  nextId : ℕ
deriving DecidableEq

/-- Result of one Get call: the returned shared reference (object id),
whether a fresh load occurred, and the cache afterwards. -/
structure GetResult where
  ref : ℕ
  loaded : Bool
  cache : ResourceCache
deriving DecidableEq

/-- ResourceManager GetMesh and GetShader share this body (EntryPoint.cpp
lines 169 to 182 and 184 to 202): find the resource string in the map;
if an entry exists and its weak_ptr still locks, return the locked
shared_ptr; otherwise load the asset, store it in the map under the
string key and return it.  Whether a weak reference still locks at call
time is the alive oracle. -/
def getResource (alive : ℕ → Bool) (c : ResourceCache) (resource : String) : GetResult :=
  match lookupEntry c.entries resource with
  | some id =>
    if alive id then ⟨id, false, c⟩
    else ⟨c.nextId, true, ⟨(resource, c.nextId) :: c.entries, c.nextId + 1⟩⟩
  | none => ⟨c.nextId, true, ⟨(resource, c.nextId) :: c.entries, c.nextId + 1⟩⟩

/-! ## Claim C10 -/

/-- C10: the resource cache is stable.  For two calls with the same
resource string, if the object returned by the first call is still alive
when the second call is made, the second call returns the same object
with no new load and leaves the cache unchanged; and a load occurs only
when no live cached entry exists for that string. -/
theorem getResource_cache_stable (alive1 alive2 : ℕ → Bool) (c : ResourceCache)
    (resource : String)
    (halive : alive2 (getResource alive1 c resource).ref = true) :
    getResource alive2 (getResource alive1 c resource).cache resource
      = ⟨(getResource alive1 c resource).ref, false, (getResource alive1 c resource).cache⟩
    ∧ ((getResource alive1 c resource).loaded = true →
        ∀ id, lookupEntry c.entries resource = some id → alive1 id = false) := by
  cases hlook : lookupEntry c.entries resource with
  | some id =>
    by_cases ha : alive1 id = true
    · have hres : getResource alive1 c resource = ⟨id, false, c⟩ := by
        simp [getResource, hlook, ha]
      rw [hres] at halive ⊢
      refine ⟨?_, ?_⟩
      · simp [getResource, hlook, halive]
      · intro hload
        cases hload
    · have hres : getResource alive1 c resource =
          ⟨c.nextId, true, ⟨(resource, c.nextId) :: c.entries, c.nextId + 1⟩⟩ := by
        simp [getResource, hlook, ha]
      rw [hres] at halive ⊢
      refine ⟨?_, ?_⟩
      · simp [getResource, lookupEntry, halive]
      · intro _ id2 hlook2
        cases hlook2
        simpa using ha
  | none =>
    have hres : getResource alive1 c resource =
        ⟨c.nextId, true, ⟨(resource, c.nextId) :: c.entries, c.nextId + 1⟩⟩ := by
      simp [getResource, hlook]
    rw [hres] at halive ⊢
    refine ⟨?_, ?_⟩
    · simp [getResource, lookupEntry, halive]
    · intro _ id2 hlook2
      cases hlook2

/-- Witness for C10: a cache holding dragon.obj as object 7, an always
alive oracle; the second call returns object 7 again with no load and an
unchanged cache. -/
theorem getResource_cache_stable_witness :
    getResource (fun _ => true) (getResource (fun _ => true) ⟨[("dragon.obj", 7)], 8⟩ "dragon.obj").cache "dragon.obj"
      = ⟨(getResource (fun _ => true) ⟨[("dragon.obj", 7)], 8⟩ "dragon.obj").ref, false,
          (getResource (fun _ => true) ⟨[("dragon.obj", 7)], 8⟩ "dragon.obj").cache⟩ :=
  (getResource_cache_stable (fun _ => true) (fun _ => true) ⟨[("dragon.obj", 7)], 8⟩
      "dragon.obj" rfl).1

/-! ## Radial blur weight facts -/

/-- Helper: with jitter in [0,1) the percent of any iteration t < N is
strictly below 1. -/
lemma blurPercent_lt_one (N : ℕ) (jitter : ℚ) (t : ℕ) (ht : t < N)
    (hj1 : jitter < 1) : blurPercent N jitter t < 1 := by
  have hNpos : (0 : ℚ) < (N : ℚ) := by
    exact_mod_cast lt_of_le_of_lt (Nat.zero_le t) ht
  have hsucc : (t : ℚ) + 1 ≤ (N : ℚ) := by exact_mod_cast Nat.succ_le_of_lt ht
  rw [blurPercent, div_lt_one hNpos]
  linarith

/-- Helper: with nonnegative jitter every weight of the blur loop is
nonnegative. -/
lemma blurWeight_nonneg (N : ℕ) (jitter : ℚ) (t : ℕ) (ht : t < N)
    (hj0 : 0 ≤ jitter) (hj1 : jitter < 1) : 0 ≤ blurWeight N jitter t := by
  have hNpos : (0 : ℚ) < (N : ℚ) := by
    exact_mod_cast lt_of_le_of_lt (Nat.zero_le t) ht
  have hp0 : 0 ≤ blurPercent N jitter t :=
    div_nonneg (add_nonneg (Nat.cast_nonneg t) hj0) hNpos.le
  have hp1 : blurPercent N jitter t < 1 := blurPercent_lt_one N jitter t ht hj1
  have hfac : blurPercent N jitter t - blurPercent N jitter t * blurPercent N jitter t
      = blurPercent N jitter t * (1 - blurPercent N jitter t) := by ring
  rw [blurWeight, hfac]
  have := mul_nonneg hp0 (by linarith : (0 : ℚ) ≤ 1 - blurPercent N jitter t)
  linarith

/-- Helper: a weight with 0 < t + jitter < N is strictly positive. -/
lemma blurWeight_pos (N : ℕ) (jitter : ℚ) (t : ℕ)
    (h0 : 0 < (t : ℚ) + jitter) (h1 : (t : ℚ) + jitter < (N : ℚ)) :
    0 < blurWeight N jitter t := by
  have hNpos : (0 : ℚ) < (N : ℚ) := lt_trans h0 h1
  have hp0 : 0 < blurPercent N jitter t := div_pos h0 hNpos
  have hp1 : blurPercent N jitter t < 1 := by
    rw [blurPercent, div_lt_one hNpos]
    exact h1
  have hfac : blurPercent N jitter t - blurPercent N jitter t * blurPercent N jitter t
      = blurPercent N jitter t * (1 - blurPercent N jitter t) := by ring
  rw [blurWeight, hfac]
  have := mul_pos hp0 (by linarith : (0 : ℚ) < 1 - blurPercent N jitter t)
  linarith

/-! ## Claim C6 -/

/-- C6 counterexample: at iteration count N = 1 and fragment coordinate
(0, 0), whose hash12 jitter is exactly 0, the single weight
4 p (1 - p) with p = 0 vanishes, the weight total is 0, and the output
is the division 0 / 0 (0 in this model, NaN in GLSL) even though every
sampled value is 1; the output does not lie within [1, 1], refuting the
claim for N = 1. -/
theorem radialBlur_zero_weight_counterexample :
    hash12 (0, 0) = 0
    ∧ blurSampleVal 1 (1 / 2, 1 / 2) (0, 0) (1, 1) 0 (fun _ => 1) 1 (hash12 (0, 0)) 0 = 1
    ∧ radialBlurCore 1 (hash12 (0, 0)) 1 (1 / 2, 1 / 2) (0, 0) (1, 1) 0 (fun _ => 1) = 0
    ∧ ¬(1 ≤ radialBlurCore 1 (hash12 (0, 0)) 1 (1 / 2, 1 / 2) (0, 0) (1, 1) 0 (fun _ => 1)) := by
  have hh : hash12 (0, 0) = 0 := by
    norm_num [hash12, fract]
  have hcore : radialBlurCore 1 (hash12 (0, 0)) 1 (1 / 2, 1 / 2) (0, 0) (1, 1) 0 (fun _ => 1) = 0 := by
    rw [hh, radialBlurCore]
    simp [Finset.sum_range_one, blurWeight, blurPercent]
  refine ⟨hh, ?_, hcore, ?_⟩
  · simp [blurSampleVal]
  · rw [hcore]
    norm_num

/-- C6 (amended): for every iteration count N in 1..128 and per-pixel
jitter in [0,1), provided the weight total is nonzero (N at least 2, or
nonzero jitter), the radial blur output is the weighted average of its N
samples with weights 4 p (1 - p), p = (t + jitter) / N - a convex
combination after normalization - so each output colour channel lies
within the bounds of the sampled values.  At N = 1 with zero jitter all
weights vanish and the output is the undefined 0 / 0. -/
theorem radialBlur_convex_combination_bounds
    (N : ℕ) (jitter strength lo hi : ℚ) (center vUv res : ℚ × ℚ) (uTime : ℚ)
    (tex : ℚ × ℚ → ℚ)
    (hN1 : 1 ≤ N) (hN128 : N ≤ 128) (hj0 : 0 ≤ jitter) (hj1 : jitter < 1)
    (hnz : 2 ≤ N ∨ 0 < jitter)
    (hbound : ∀ t, t < N →
      lo ≤ blurSampleVal strength center vUv res uTime tex N jitter t ∧
        blurSampleVal strength center vUv res uTime tex N jitter t ≤ hi) :
    lo ≤ radialBlurCore N jitter strength center vUv res uTime tex
    ∧ radialBlurCore N jitter strength center vUv res uTime tex ≤ hi := by
  have hwnn : ∀ t ∈ Finset.range N, 0 ≤ blurWeight N jitter t := fun t ht =>
    blurWeight_nonneg N jitter t (Finset.mem_range.mp ht) hj0 hj1
  obtain ⟨t0, ht0N, hwpos⟩ : ∃ t0, t0 < N ∧ 0 < blurWeight N jitter t0 := by
    rcases hnz with h2 | hjpos
    · refine ⟨1, by omega, blurWeight_pos N jitter 1 ?_ ?_⟩
      · push_cast
        linarith
      · have h2Q : (2 : ℚ) ≤ (N : ℚ) := by exact_mod_cast h2
        push_cast
        linarith
    · refine ⟨0, by omega, blurWeight_pos N jitter 0 ?_ ?_⟩
      · push_cast
        linarith
      · have h1Q : (1 : ℚ) ≤ (N : ℚ) := by exact_mod_cast hN1
        push_cast
        linarith
  have htotal : 0 < ∑ t ∈ Finset.range N, blurWeight N jitter t :=
    lt_of_lt_of_le hwpos (Finset.single_le_sum hwnn (Finset.mem_range.mpr ht0N))
  have hnum_le :
      (∑ t ∈ Finset.range N,
        blurWeight N jitter t * blurSampleVal strength center vUv res uTime tex N jitter t)
      ≤ (∑ t ∈ Finset.range N, blurWeight N jitter t) * hi := by
    rw [Finset.sum_mul]
    apply Finset.sum_le_sum
    intro t ht
    exact mul_le_mul_of_nonneg_left (hbound t (Finset.mem_range.mp ht)).2 (hwnn t ht)
  have hnum_ge :
      (∑ t ∈ Finset.range N, blurWeight N jitter t) * lo
      ≤ ∑ t ∈ Finset.range N,
          blurWeight N jitter t * blurSampleVal strength center vUv res uTime tex N jitter t := by
    rw [Finset.sum_mul]
    apply Finset.sum_le_sum
    intro t ht
    exact mul_le_mul_of_nonneg_left (hbound t (Finset.mem_range.mp ht)).1 (hwnn t ht)
  rw [radialBlurCore]
  constructor
  · rw [le_div_iff₀ htotal, mul_comm]
    exact hnum_ge
  · rw [div_le_iff₀ htotal, mul_comm]
    exact hnum_le

/-- Witness for the amended C6 at N = 2, jitter 0, constant samples 1
bounded by [0, 1]. -/
theorem radialBlur_convex_combination_bounds_witness :
    0 ≤ radialBlurCore 2 0 1 (1 / 2, 1 / 2) (0, 0) (1, 1) 0 (fun _ => 1)
    ∧ radialBlurCore 2 0 1 (1 / 2, 1 / 2) (0, 0) (1, 1) 0 (fun _ => 1) ≤ 1 :=
  radialBlur_convex_combination_bounds 2 0 1 0 1 (1 / 2, 1 / 2) (0, 0) (1, 1) 0 (fun _ => 1)
    (by norm_num) (by norm_num) le_rfl (by norm_num) (Or.inl le_rfl)
    (fun t ht => by norm_num [blurSampleVal])

/-! ## Claim C2 -/

/-- A simple step texture used to distinguish blur configurations: one
channel that is 1 on the right half of texture space and 0 elsewhere. -/
def stepTex : ℚ × ℚ → ℚ := fun p => if 1 / 2 < p.1 then 1 else 0

/-- C2: the radial blur does not use the iteration count supplied by the
driver nor the uploaded sun focus point.  The shader declares no uCenter
and no uIterations uniform, and on concrete inputs (resolution (1, 1),
fragment (0, 0), step texture) the shader output (hardcoded centre
(0.5, 0.5) and 40 iterations, value 0) differs from the spec-described
blur driven by the uploaded values (20 iterations, sun centre (1, 1)
remapped to (1, 1), a strictly positive value). -/
theorem radialBlur_ignores_driver_center_and_iterations :
    "uCenter" ∉ radialBlurShaderUniforms
    ∧ "uIterations" ∉ radialBlurShaderUniforms
    ∧ fragMain (1, 1) 0 stepTex (0, 0) (0, 0)
        ≠ radialBlurDriven 20 (1, 1) (1, 1) 0 stepTex (0, 0) (0, 0) := by
  have hh : hash12 (0, 0) = 0 := by
    norm_num [hash12, fract]
  have hfrag : fragMain (1, 1) 0 stepTex (0, 0) (0, 0) = 0 := by
    rw [fragMain, hh, radialBlurCore]
    have hnum : (∑ t ∈ Finset.range 40,
        blurWeight 40 0 t * blurSampleVal 1 (1 / 2, 1 / 2) (0, 0) (1, 1) 0 stepTex 40 0 t) = 0 := by
      apply Finset.sum_eq_zero
      intro t ht
      have htlt : (t : ℚ) < 40 := by exact_mod_cast Finset.mem_range.mp ht
      have hs : blurSampleVal 1 (1 / 2, 1 / 2) (0, 0) (1, 1) 0 stepTex 40 0 t = 0 := by
        simp only [blurSampleVal, blurSamplePos, blurPercent, stepTex]
        rw [if_neg]
        · ring
        · push_cast
          intro hcon
          linarith
      rw [hs, mul_zero]
    rw [hnum, zero_div]
  have hdriven : 0 < radialBlurDriven 20 (1, 1) (1, 1) 0 stepTex (0, 0) (0, 0) := by
    rw [radialBlurDriven, driverBlurCenter, hh, radialBlurCore]
    have hsnn : ∀ t ∈ Finset.range 20,
        0 ≤ blurWeight 20 0 t *
          blurSampleVal 1 (1 * (1 / 2) + 1 / 2, 1 * (1 / 2) + 1 / 2) (0, 0) (1, 1) 0 stepTex 20 0 t := by
      intro t ht
      apply mul_nonneg (blurWeight_nonneg 20 0 t (Finset.mem_range.mp ht) le_rfl (by norm_num))
      simp only [blurSampleVal, stepTex]
      split
      · norm_num
      · norm_num
    apply div_pos
    · apply Finset.sum_pos' hsnn
      refine ⟨15, Finset.mem_range.mpr (by norm_num), ?_⟩
      apply mul_pos
      · exact blurWeight_pos 20 0 15 (by norm_num) (by norm_num)
      · simp only [blurSampleVal, blurSamplePos, blurPercent, stepTex]
        rw [if_pos]
        · norm_num
        · push_cast
          norm_num
    · apply Finset.sum_pos' (fun t ht =>
        blurWeight_nonneg 20 0 t (Finset.mem_range.mp ht) le_rfl (by norm_num))
      exact ⟨15, Finset.mem_range.mpr (by norm_num), blurWeight_pos 20 0 15 (by norm_num) (by norm_num)⟩
  rw [hfrag]
  refine ⟨?_, ?_, ne_of_lt hdriven⟩
  · simp [radialBlurShaderUniforms]
  · simp [radialBlurShaderUniforms]
